import Mathlib

/-!
# Verification of the enterprise documentation chatbot core

Shallow embedding of the ingestion-and-retrieval pipeline and the
conversational orchestration layer of the chatbot:

* `app/services/document_service.py` — chunking (`DocumentService.chunk_text`)
  and the chunk rows recorded by `DocumentService.process_document`;
* `app/services/chat_service.py` — `ChatService.get_or_create_conversation`,
  `save_message`, `load_conversation_history`, `generate_response`;
* `app/services/embedding_service.py` — `EmbeddingService.calculate_similarity`;
* `app/api/documents.py` — the `search_documents` retrieval endpoint.

Texts are modelled as `List Char` (Python `str`), floats as `ℚ`, database
rows as Lean structures, and Python dictionaries returned to callers as
association lists so that presence and absence of a key are distinguishable.
The external ChromaDB/Gemini/OpenAI services are abstracted as function
parameters; database sessions are threaded explicitly.
-/

/-! ## Chunker (`DocumentService.chunk_text`, document_service.py lines 94-129)

The service is constructed with `chunk_size = 1000` and `chunk_overlap = 200`
(document_service.py lines 26-27). -/

set_option maxRecDepth 100000

def chunkSize : Nat := 1000

def chunkOverlap : Nat := 200

/-- The character class removed by Python `str.strip()` (ASCII whitespace). -/
def isPyWhitespace (c : Char) : Bool :=
  c = ' ' || c = '\t' || c = '\n' || c = '\x0d' || c = '\x0b' || c = '\x0c'

/-- Python `s.strip()`: remove leading and trailing whitespace. -/
def pyStrip (l : List Char) : List Char :=
  ((l.dropWhile isPyWhitespace).reverse.dropWhile isPyWhitespace).reverse

/-- Python slice `text[s:e]` for `0 ≤ s ≤ e` (out-of-range indices clamp). -/
def pySlice (text : List Char) (s e : Nat) : List Char :=
  (text.drop s).take (e - s)

/-- Index of the last space character of a list, if any. -/
def lastSpaceIdx : List Char → Option Nat
  | [] => none
  | c :: cs =>
    match lastSpaceIdx cs with
    | some i => some (i + 1)
    | none => if c = ' ' then some 0 else none

/-- Python `text.rfind(" ", s, e)`: highest index `i` with `s ≤ i < e`,
`i < text.length` and `text[i] = ' '`; `none` stands for Python's `-1`. -/
def rfindSpace (text : List Char) (s e : Nat) : Option Nat :=
  (lastSpaceIdx (pySlice text s e)).map (· + s)

/-- One iteration of the `chunk_text` loop: the cut position `end` for the
chunk starting at `start` (document_service.py lines 110-117). -/
def chunkEnd (text : List Char) (start : Nat) : Nat :=
  if start + chunkSize < text.length then
    match rfindSpace text start (start + chunkSize) with
    | some ls => if start < ls then ls else start + chunkSize
    | none => start + chunkSize
  else start + chunkSize

/-- The advance of `start` at the end of one loop iteration
(document_service.py lines 125-127): Python computes
`start = end - chunk_overlap` in `ℤ` and resets `start = end`
when that value is `≤ 0`; over `ℕ` the test `end ≤ chunkOverlap`
is exactly Python's `start <= 0`. -/
def nextStart (text : List Char) (start : Nat) : Nat :=
  if chunkEnd text start ≤ chunkOverlap then chunkEnd text start
  else chunkEnd text start - chunkOverlap

/-- A chunk produced by the chunking pass: the scan positions `[start, stop)`
it was cut from and its stripped text. -/
structure ChunkSpan where
  start : Nat
  stop : Nat
  text : List Char
deriving DecidableEq, Repr

/-- The `while start < text_length` loop of `chunk_text`
(document_service.py lines 108-127), with explicit fuel because the loop
does not terminate on all inputs (see `chunk_text_loops_forever`).
Running out of fuel ends the run; the spans already produced are exactly
those of the first `fuel` iterations of the Python loop. -/
def chunkLoop (text : List Char) : Nat → Nat → List ChunkSpan
  | 0, _ => []
  | fuel + 1, start =>
    if start < text.length then
      if (pyStrip (pySlice text start (chunkEnd text start))).isEmpty then
        chunkLoop text fuel (nextStart text start)
      else
        ⟨start, chunkEnd text start, pyStrip (pySlice text start (chunkEnd text start))⟩ ::
          chunkLoop text fuel (nextStart text start)
    else []

/-- `DocumentService.chunk_text`: the list of chunk texts. -/
def chunk_text (text : List Char) (fuel : Nat) : List (List Char) :=
  (chunkLoop text fuel 0).map (·.text)

/-- Whether the `chunk_text` while loop, started at scan position `start`,
exits within `fuel` iterations. -/
def loopExitsWithin (text : List Char) : Nat → Nat → Bool
  | 0, start => decide (text.length ≤ start)
  | fuel + 1, start =>
    if start < text.length then loopExitsWithin text fuel (nextStart text start)
    else true

/-- A text on which `chunk_text` never terminates: 201 `a`s, one space at
index 201, then 801 `b`s (1003 characters).  The first iteration cuts at the
space (`end = 201`) and advances to `start = 1`; from then on every
iteration finds the same space, cuts at `end = 201`, and re-sets `start` to
`201 - 200 = 1` forever. -/
def nonTermText : List Char :=
  List.replicate 201 'a' ++ ' ' :: List.replicate 801 'b'

lemma nonTermText_stuck : ∀ fuel, loopExitsWithin nonTermText fuel 1 = false := by
  intro fuel
  induction fuel with
  | zero => decide
  | succ n ih =>
    have hlt : 1 < nonTermText.length := by decide
    have hstep : nextStart nonTermText 1 = 1 := by decide
    simp only [loopExitsWithin, hlt, if_true, hstep, ih]

/-! ### Chunk rows recorded by `DocumentService.process_document`
(document_service.py lines 177-210): for the `i`-th chunk the stored row has
`start_char = i * (chunk_size - chunk_overlap)` and
`end_char = (i + 1) * (chunk_size - chunk_overlap)` (lines 203-204),
independent of the positions the chunking pass actually cut at. -/

def recordedStartChar (i : Nat) : Nat := i * (chunkSize - chunkOverlap)

def recordedEndChar (i : Nat) : Nat := (i + 1) * (chunkSize - chunkOverlap)

/-- A text producing two chunks whose real spans differ from the recorded
ones: 995 `x`s, a space, 500 `y`s.  The chunking pass cuts at the space, so
the real spans are `[0, 995)` and `[795, 1795)`. -/
def spanText : List Char :=
  List.replicate 995 'x' ++ ' ' :: List.replicate 500 'y'

/-- C4: the claim is false of the code.  On `spanText` the chunking pass
produces spans `[0, 995)` and `[795, 1795)`, but the rows recorded by
`process_document` carry `(0, 800)` and `(800, 1600)`: the second row's
`start_char` (800) is not the previous row's `end_char` minus the overlap
(600) — recorded spans are adjacent, not contiguous-with-overlap — and the
recorded spans do not match the chunks' actual positions in the text. -/
theorem process_document_recorded_span_cex :
    (chunkLoop spanText 4 0).map (fun sp => (sp.start, sp.stop)) = [(0, 995), (795, 1795)] ∧
    loopExitsWithin spanText 4 0 = true ∧
    recordedStartChar 0 = 0 ∧
    recordedEndChar 0 = 800 ∧
    recordedStartChar 1 = 800 ∧
    recordedEndChar 1 = 1600 ∧
    recordedStartChar 1 ≠ recordedEndChar 0 - chunkOverlap ∧
    recordedEndChar 0 ≠ 995 := by
  refine ⟨by decide, by decide, by decide, by decide, by decide, by decide, by decide, by decide⟩

/-! ### Chunk sizes and coverage -/

lemma lastSpaceIdx_lt_length {l : List Char} {i : Nat} (h : lastSpaceIdx l = some i) :
    i < l.length := by
  induction l generalizing i with
  | nil => simp [lastSpaceIdx] at h
  | cons c cs ih =>
    rcases hcs : lastSpaceIdx cs with _ | j
    · simp only [lastSpaceIdx, hcs] at h
      split at h
      · simp only [Option.some.injEq] at h
        simp [← h]
      · exact absurd h (by simp)
    · simp only [lastSpaceIdx, hcs, Option.some.injEq] at h
      have := ih hcs
      simp only [List.length_cons]
      omega

lemma pySlice_length_le (text : List Char) (s e : Nat) :
    (pySlice text s e).length ≤ e - s :=
  List.length_take_le _ _

lemma chunkEnd_le (text : List Char) (s : Nat) :
    chunkEnd text s ≤ s + chunkSize := by
  unfold chunkEnd
  split
  · rcases h : rfindSpace text s (s + chunkSize) with _ | ls
    · simp
    · simp only []
      split
      · unfold rfindSpace at h
        rcases h2 : lastSpaceIdx (pySlice text s (s + chunkSize)) with _ | j
        · rw [h2] at h; simp at h
        · rw [h2] at h
          simp only [Option.map_some', Option.some.injEq] at h
          have hj := lastSpaceIdx_lt_length h2
          have hle := pySlice_length_le text s (s + chunkSize)
          omega
      · exact Nat.le_refl _
  · exact Nat.le_refl _

lemma nextStart_le_chunkEnd (text : List Char) (s : Nat) :
    nextStart text s ≤ chunkEnd text s := by
  unfold nextStart
  split
  · exact Nat.le_refl _
  · exact Nat.sub_le _ _

lemma pyStrip_length_le (l : List Char) : (pyStrip l).length ≤ l.length := by
  unfold pyStrip
  calc (((l.dropWhile isPyWhitespace).reverse.dropWhile isPyWhitespace).reverse).length
      = ((l.dropWhile isPyWhitespace).reverse.dropWhile isPyWhitespace).length := by
        simp
    _ ≤ (l.dropWhile isPyWhitespace).reverse.length := (List.dropWhile_sublist _).length_le
    _ = (l.dropWhile isPyWhitespace).length := by simp
    _ ≤ l.length := (List.dropWhile_sublist _).length_le

lemma pyStrip_eq_nil_all_ws {l : List Char} (h : pyStrip l = []) :
    ∀ c ∈ l, isPyWhitespace c = true := by
  unfold pyStrip at h
  rw [List.reverse_eq_nil_iff, List.dropWhile_eq_nil_iff] at h
  intro c hc
  rcases (List.mem_append.mp ((List.takeWhile_append_dropWhile isPyWhitespace l) ▸ hc)) with h1 | h1
  · exact List.mem_takeWhile_imp h1
  · exact h c (List.mem_reverse.mpr h1)

/-- Characters inside the scan window `[s, e)` belong to `pySlice text s e`. -/
lemma getD_mem_pySlice {text : List Char} {s e i : Nat}
    (hs : s ≤ i) (he : i < e) (hl : i < text.length) :
    text.getD i 'a' ∈ pySlice text s e := by
  have hj1 : i - s < e - s := by omega
  have hj2 : i - s < (text.drop s).length := by simp; omega
  have hlen : i - s < (pySlice text s e).length := by
    unfold pySlice
    simp only [List.length_take, List.length_drop]
    omega
  have hgd : (pySlice text s e).get (Fin.mk (i - s) hlen) = text.getD i 'a' := by
    rw [List.getD_eq_getElem _ _ hl]
    simp only [List.get_eq_getElem]
    unfold pySlice
    rw [List.getElem_take]
    rw [List.getElem_drop]
    congr 1
    omega
  rw [← hgd]
  exact List.get_mem _ _ _

/-- Every position in `[a, b)` of the text holds a whitespace character. -/
def wsBetween (text : List Char) (a b : Nat) : Prop :=
  ∀ i, a ≤ i → i < b → i < text.length → isPyWhitespace (text.getD i 'a') = true

lemma wsBetween_of_le {text : List Char} {a b : Nat} (h : b ≤ a) :
    wsBetween text a b := by
  intro i h1 h2
  omega

/-- Consecutive produced chunk spans leave only whitespace uncovered:
`e0` is the end of the previously produced span (0 initially), and between it
and the start of each next produced span every character is whitespace. -/
def gapsWhitespaceOnly (text : List Char) : Nat → List ChunkSpan → Prop
  | _, [] => True
  | e0, sp :: rest => wsBetween text e0 sp.start ∧ gapsWhitespaceOnly text sp.stop rest

lemma chunkLoop_text_length (text : List Char) :
    ∀ fuel start, ∀ sp ∈ chunkLoop text fuel start, sp.text.length ≤ chunkSize := by
  intro fuel
  induction fuel with
  | zero => intro start sp h; simp [chunkLoop] at h
  | succ n ih =>
    intro start sp h
    simp only [chunkLoop] at h
    split at h
    · split at h
      · exact ih _ sp h
      · cases h with
        | head =>
          have h1 := pyStrip_length_le (pySlice text start (chunkEnd text start))
          have h2 := pySlice_length_le text start (chunkEnd text start)
          have h3 := chunkEnd_le text start
          simp only []
          omega
        | tail _ h => exact ih _ sp h
    · simp at h

lemma chunkLoop_gaps (text : List Char) :
    ∀ fuel start e0, wsBetween text e0 start →
      gapsWhitespaceOnly text e0 (chunkLoop text fuel start) := by
  intro fuel
  induction fuel with
  | zero => intro start e0 _; simp [chunkLoop, gapsWhitespaceOnly]
  | succ n ih =>
    intro start e0 hws
    simp only [chunkLoop]
    split
    · split
      · -- empty (all-whitespace) chunk dropped: extend the whitespace window
        rename_i hlt hempty
        apply ih
        intro i h1 h2 h3
        by_cases hcase : i < start
        · exact hws i h1 hcase h3
        · have hse : i < chunkEnd text start := by
            have := nextStart_le_chunkEnd text start
            omega
          have hmem := getD_mem_pySlice (Nat.le_of_not_lt hcase) hse h3
          exact pyStrip_eq_nil_all_ws (List.isEmpty_iff.mp hempty) _ hmem
      · -- chunk produced: gap before it is the inherited window
        refine ⟨hws, ih _ _ ?_⟩
        exact wsBetween_of_le (nextStart_le_chunkEnd text start)
    · simp [gapsWhitespaceOnly]

/-- C8 (amended): every chunk produced by `chunk_text` has at most
`chunk_size` characters (word-boundary cutting and stripping only shorten),
and between the spans of consecutively produced chunks only whitespace
characters are ever left uncovered: whitespace-only windows are dropped
(document_service.py line 121), so coverage has no gaps except across
all-whitespace stretches. -/
theorem chunk_text_size_bound_and_gaps (text : List Char) (fuel : Nat) :
    (∀ sp ∈ chunkLoop text fuel 0, sp.text.length ≤ chunkSize) ∧
    gapsWhitespaceOnly text 0 (chunkLoop text fuel 0) :=
  ⟨chunkLoop_text_length text fuel 0,
   chunkLoop_gaps text fuel 0 0 (wsBetween_of_le (Nat.le_refl 0))⟩

/-- A text witnessing a coverage gap: `ab`, then 1798 newlines, then `zzz`
(1803 characters).  The middle window `[800, 1800)` is all newlines, is
stripped to empty and dropped, and the next produced chunk starts at 1600,
strictly after the first chunk's end 1000. -/
def gapText : List Char :=
  'a' :: 'b' :: (List.replicate 1798 '\n' ++ List.replicate 3 'z')

/-- C8 counterexample: on `gapText` the loop terminates (fuel 6 suffices)
and produces exactly two chunks whose spans are `[0, 1000)` and
`[1600, 2600)`: the second chunk's span starts strictly after the previous
span's end, refuting gap-freeness as claimed. -/
theorem chunk_text_gap_cex :
    chunkLoop gapText 6 0 =
      [⟨0, 1000, ['a', 'b']⟩, ⟨1600, 2600, ['z', 'z', 'z']⟩] ∧
    loopExitsWithin gapText 6 0 = true ∧
    ¬ (1600 ≤ 1000) := by
  refine ⟨by decide, by decide, by decide⟩

/-- C1: the claim is false of the code: `chunk_text` does not terminate on
every finite text.  On `nonTermText` the loop runs forever: the guard at
document_service.py line 126 compares `end - chunk_overlap` with `0`, not
with the previous value of `start`, so no forward progress is made once the
scan is caught between a space and the `start <= 0` test. -/
theorem chunk_text_loops_forever :
    ∀ fuel, loopExitsWithin nonTermText fuel 0 = false := by
  intro fuel
  cases fuel with
  | zero => decide
  | succ n =>
    have hlt : 0 < nonTermText.length := by decide
    have hstep : nextStart nonTermText 0 = 1 := by decide
    simp only [loopExitsWithin, hlt, if_true, hstep, nonTermText_stuck]

/-! ## Chat service data model (`app/models/conversations.py`, `users.py`)

Rows of the relational store.  Timestamps are modelled by a logical clock
(`ChatDb.clock`) that increases on every write, matching `datetime.utcnow()`
being monotone across the sequential writes of one request.  UUID session
identifiers are modelled as naturals drawn from a fresh counter. -/

/-- A source attribution dictionary built for storage by `generate_response`
(chat_service.py lines 239-247). -/
structure SourceInfo where
  source : List Char
  department : List Char
  contentType : List Char
  documentId : Option Nat
  relevanceScore : ℚ
  chunkContent : List Char
deriving DecidableEq, Repr

structure UserRec where
  id : Nat
  name : List Char
  email : List Char
  role : List Char
deriving DecidableEq, Repr

structure ConvRec where
  id : Nat
  userId : Nat
  sessionId : Nat
  title : List Char
  isActive : Bool
  lastMessageAt : Option Nat
deriving DecidableEq, Repr

structure MsgRec where
  id : Nat
  conversationId : Nat
  content : List Char
  isUserMessage : Bool
  timestamp : Nat
  sourceDocuments : Option (List SourceInfo)
  confidenceScore : Option ℚ
deriving DecidableEq, Repr

structure ChatDb where
  users : List UserRec
  convs : List ConvRec
  msgs : List MsgRec
  nextUserId : Nat
  nextConvId : Nat
  nextMsgId : Nat
  nextSessionId : Nat
  clock : Nat
deriving DecidableEq, Repr

/-- Python values as returned in the response dictionaries; a dictionary is
an association list so that an absent key differs from a key mapped to
`None`. -/
inductive PyVal where
  | pyNone : PyVal
  | pyStr : List Char → PyVal
  | pyInt : Nat → PyVal
  | pyFloat : ℚ → PyVal
  | pyList : List PyVal → PyVal
  | pyDict : List (String × PyVal) → PyVal
deriving Repr

/-- `d.get(k)` on a Python dict modelled as an association list. -/
def dictGet (kvs : List (String × PyVal)) (k : String) : Option PyVal :=
  match kvs.find? (fun p => p.1 == k) with
  | some p => some p.2
  | none => none

def encOptNat : Option Nat → PyVal
  | some n => .pyInt n
  | none => .pyNone

def encOptRat : Option ℚ → PyVal
  | some q => .pyFloat q
  | none => .pyNone

/-- The dict stored per source (chat_service.py lines 240-247). -/
def sourceInfoVal (s : SourceInfo) : PyVal :=
  .pyDict [("source", .pyStr s.source),
           ("department", .pyStr s.department),
           ("content_type", .pyStr s.contentType),
           ("document_id", encOptNat s.documentId),
           ("relevance_score", .pyFloat s.relevanceScore),
           ("chunk_content", .pyStr s.chunkContent)]

/-! ## Chat service operations (`app/services/chat_service.py`) -/

/-- The user half of `ChatService.get_or_create_conversation`
(chat_service.py lines 125-135): look up by email; if absent, create a user
whose name is the email prefix before `@` and whose role is `employee`. -/
def get_or_create_user (db : ChatDb) (userEmail : List Char) : UserRec × ChatDb :=
  match db.users.find? (fun u => u.email == userEmail) with
  | some u => (u, db)
  | none =>
    (⟨db.nextUserId, userEmail.takeWhile (fun c => c ≠ '@'), userEmail, "employee".toList⟩,
     { db with
       users := db.users ++
         [⟨db.nextUserId, userEmail.takeWhile (fun c => c ≠ '@'), userEmail, "employee".toList⟩],
       nextUserId := db.nextUserId + 1 })

/-- The conversation lookup (chat_service.py lines 138-144): only performed
when a session id was supplied, and only matching an active conversation of
this user. -/
def findActiveConv (db : ChatDb) (uid : Nat) (sessionId : Option Nat) : Option ConvRec :=
  match sessionId with
  | some sid => db.convs.find? (fun c => c.sessionId == sid && c.userId == uid && c.isActive)
  | none => none

/-- The conversation half of `get_or_create_conversation` (chat_service.py
lines 137-159): take the found conversation, or create a new one titled
`"New Chat"`, with the supplied session id, or a freshly minted one when
none was supplied (line 151: `session_id or str(uuid.uuid4())`). -/
def createOrFindConv (db : ChatDb) (u : UserRec) (sessionId : Option Nat) :
    ConvRec × UserRec × ChatDb :=
  match findActiveConv db u.id sessionId with
  | some c => (c, u, db)
  | none =>
    match sessionId with
    | some s =>
      (⟨db.nextConvId, u.id, s, "New Chat".toList, true, none⟩, u,
       { db with
         convs := db.convs ++ [⟨db.nextConvId, u.id, s, "New Chat".toList, true, none⟩],
         nextConvId := db.nextConvId + 1 })
    | none =>
      (⟨db.nextConvId, u.id, db.nextSessionId, "New Chat".toList, true, none⟩, u,
       { db with
         convs := db.convs ++
           [⟨db.nextConvId, u.id, db.nextSessionId, "New Chat".toList, true, none⟩],
         nextConvId := db.nextConvId + 1,
         nextSessionId := db.nextSessionId + 1 })

/-- `ChatService.get_or_create_conversation` (chat_service.py lines 117-159):
the user half followed by the conversation half. -/
def get_or_create_conversation (db : ChatDb) (userEmail : List Char)
    (sessionId : Option Nat) : ConvRec × UserRec × ChatDb :=
  createOrFindConv (get_or_create_user db userEmail).2 (get_or_create_user db userEmail).1
    sessionId

/-- `ChatService.save_message` (chat_service.py lines 161-188): append the
message row and stamp the conversation's `last_message_at`. -/
def save_message (db : ChatDb) (conv : ConvRec) (content : List Char)
    (isUser : Bool) (sourceDocs : Option (List SourceInfo)) (conf : Option ℚ) :
    MsgRec × ChatDb :=
  let m : MsgRec := ⟨db.nextMsgId, conv.id, content, isUser, db.clock, sourceDocs, conf⟩
  (m, { db with
        msgs := db.msgs ++ [m],
        convs := db.convs.map
          (fun c => if c.id = conv.id then { c with lastMessageAt := some db.clock } else c),
        nextMsgId := db.nextMsgId + 1,
        clock := db.clock + 1 })

/-- Stable insertion into a timestamp-sorted list (a kernel-reducible model
of SQL `ORDER BY timestamp` with ties kept in insertion order). -/
def insertByTimestamp (m : MsgRec) : List MsgRec → List MsgRec
  | [] => [m]
  | x :: xs => if m.timestamp ≤ x.timestamp then m :: x :: xs else x :: insertByTimestamp m xs

def sortByTimestamp : List MsgRec → List MsgRec
  | [] => []
  | x :: xs => insertByTimestamp x (sortByTimestamp xs)

/-- `ChatService.load_conversation_history` (chat_service.py lines 190-206):
the messages loaded into the prompt memory, in the order they are added —
`filter(conversation_id) |> order_by(timestamp) |> limit(10)`. -/
def load_conversation_history (db : ChatDb) (conversationId : Nat) : List MsgRec :=
  (sortByTimestamp (db.msgs.filter (fun m => m.conversationId == conversationId))).take 10

/-- A document returned by the LangChain retrieval chain
(`result["source_documents"]`): page content plus the metadata fields set by
`CustomDocumentRetriever._get_relevant_documents` (chat_service.py
lines 44-55); `Option` marks fields `metadata.get` may miss. -/
structure ChainDoc where
  pageContent : List Char
  source : Option (List Char)
  department : Option (List Char)
  contentType : Option (List Char)
  documentId : Option Nat
  relevanceScore : Option ℚ
deriving DecidableEq, Repr

/-- The external `self.chain({"question": ...})` call: given the hydrated
memory and the question, either an answer with its source documents or an
exception.  Retrieval and LLM generation both happen inside this call. -/
def ChainFn : Type :=
  List MsgRec → List Char → Except (List Char) (List Char × List ChainDoc)

/-- One entry of `source_doc_info` (chat_service.py lines 240-247). -/
def mkSourceInfo (d : ChainDoc) : SourceInfo :=
  { source := d.source.getD "Unknown".toList
    department := d.department.getD []
    contentType := d.contentType.getD []
    documentId := d.documentId
    relevanceScore := d.relevanceScore.getD 0
    chunkContent :=
      if 200 < d.pageContent.length then d.pageContent.take 200 ++ "...".toList
      else d.pageContent }

/-- Confidence scoring (chat_service.py lines 249-253): `None` when no
sources, else the mean relevance capped at 1. -/
def confidenceScoreOf (info : List SourceInfo) : Option ℚ :=
  if info.isEmpty then none
  else some (min ((info.map (fun s => s.relevanceScore)).sum / (info.length : ℚ)) 1)

/-- Title truncation (chat_service.py line 268):
`user_message[:50] + ("..." if len(user_message) > 50 else "")`. -/
def newTitleFrom (userMessage : List Char) : List Char :=
  userMessage.take 50 ++ (if 50 < userMessage.length then "...".toList else [])

/-- The apology text of the error response (chat_service.py line 283). -/
def apologyText (e : List Char) : List Char :=
  "I apologize, but I encountered an error while processing your request: ".toList ++ e

/-- `ChatService.generate_response` (chat_service.py lines 208-289).  The
`try` block's only failure point is the chain call (retrieval + LLM); the
database operations are total.  On failure the `except` branch returns the
error dictionary of lines 282-289 with the database as already mutated —
the user message saved at lines 227-229 stays persisted. -/
def generate_response (chain : ChainFn) (db : ChatDb) (userEmail userMessage : List Char)
    (sessionId : Option Nat) : ChatDb × List (String × PyVal) :=
  match get_or_create_conversation db userEmail sessionId with
  | (conv, _user, db1) =>
    match save_message db1 conv userMessage true none none with
    | (_userMsg, db2) =>
      match chain (load_conversation_history db1 conv.id) userMessage with
      | .error e =>
        (db2, [("response", .pyStr (apologyText e)),
               ("session_id", encOptNat sessionId),
               ("message_id", .pyNone),
               ("sources", .pyList []),
               ("confidence_score", .pyNone),
               ("error", .pyStr e)])
      | .ok (aiResponse, sourceDocs) =>
        match save_message db2 conv aiResponse false
            (some (sourceDocs.map mkSourceInfo))
            (confidenceScoreOf (sourceDocs.map mkSourceInfo)) with
        | (aiMsg, db3) =>
          if conv.title = "New Chat".toList ∧ 10 < userMessage.length then
            ({ db3 with
                convs := db3.convs.map (fun c =>
                  if c.id = conv.id then { c with title := newTitleFrom userMessage } else c) },
             [("response", .pyStr aiResponse),
              ("session_id", .pyInt conv.sessionId),
              ("message_id", .pyInt aiMsg.id),
              ("sources", .pyList ((sourceDocs.map mkSourceInfo).map sourceInfoVal)),
              ("confidence_score", encOptRat (confidenceScoreOf (sourceDocs.map mkSourceInfo))),
              ("conversation_title", .pyStr (newTitleFrom userMessage))])
          else
            (db3,
             [("response", .pyStr aiResponse),
              ("session_id", .pyInt conv.sessionId),
              ("message_id", .pyInt aiMsg.id),
              ("sources", .pyList ((sourceDocs.map mkSourceInfo).map sourceInfoVal)),
              ("confidence_score", encOptRat (confidenceScoreOf (sourceDocs.map mkSourceInfo))),
              ("conversation_title", .pyStr conv.title)])

/-! ## C2: the history window -/

/-- A conversation with twelve persisted messages, ids and timestamps 1..12. -/
def historyMsgs : List MsgRec :=
  (List.range 12).map (fun i => ⟨i + 1, 1, [Char.ofNat (97 + i)], i % 2 == 0, i + 1, none, none⟩)

def historyDb : ChatDb :=
  ⟨[⟨1, "alice".toList, "alice@corp.com".toList, "employee".toList⟩],
   [⟨1, 1, 77, "Policy questions".toList, true, some 12⟩],
   historyMsgs, 2, 2, 13, 78, 13⟩

/-- C2: the claim is false of the code.  `load_conversation_history` sorts
ascending by timestamp and then applies `limit(10)` (chat_service.py
lines 197-199), so on a conversation with twelve messages it loads the
*earliest* ten (ids 1..10) — the latest message (id 12) is not in the
window, though the code's own comment says "Get recent messages (last 10
messages or 5 exchanges)". -/
theorem load_conversation_history_takes_oldest :
    (load_conversation_history historyDb 1).map (fun m => m.id) =
      [1, 2, 3, 4, 5, 6, 7, 8, 9, 10] ∧
    (historyDb.msgs.filter (fun m => m.conversationId == 1)).map (fun m => m.id) =
      [1, 2, 3, 4, 5, 6, 7, 8, 9, 10, 11, 12] ∧
    ¬ (12 ∈ (load_conversation_history historyDb 1).map (fun m => m.id)) := by
  refine ⟨by decide, by decide, by decide⟩

/-! ## C3: the orchestrator error contract -/

lemma save_message_eq (db : ChatDb) (conv : ConvRec) (content : List Char)
    (isUser : Bool) (sd : Option (List SourceInfo)) (conf : Option ℚ) :
    save_message db conv content isUser sd conf =
      (⟨db.nextMsgId, conv.id, content, isUser, db.clock, sd, conf⟩,
       { db with
         msgs := db.msgs ++ [⟨db.nextMsgId, conv.id, content, isUser, db.clock, sd, conf⟩],
         convs := db.convs.map (fun c =>
           if c.id = conv.id then { c with lastMessageAt := some db.clock } else c),
         nextMsgId := db.nextMsgId + 1,
         clock := db.clock + 1 }) := rfl

/-- After `get_or_create_conversation`, the returned database holds a
conversation row with the returned conversation's id. -/
lemma createOrFindConv_conv_mem {db : ChatDb} {u : UserRec}
    {sid : Option Nat} {conv : ConvRec} {u' : UserRec} {db1 : ChatDb}
    (h : createOrFindConv db u sid = (conv, u', db1)) :
    ∃ c ∈ db1.convs, c.id = conv.id := by
  unfold createOrFindConv at h
  rcases hf : findActiveConv db u.id sid with _ | c0 <;> rw [hf] at h
  · rcases sid with _ | s <;> simp only [Prod.mk.injEq] at h
    · refine ⟨conv, ?_, rfl⟩
      rw [← h.2.2, ← h.1]
      simp
    · refine ⟨conv, ?_, rfl⟩
      rw [← h.2.2, ← h.1]
      simp
  · simp only [Prod.mk.injEq] at h
    refine ⟨conv, ?_, rfl⟩
    rw [← h.2.2, ← h.1]
    unfold findActiveConv at hf
    rcases sid with _ | s
    · exact absurd hf (by simp)
    · exact List.mem_of_find?_eq_some hf

lemma get_or_create_conversation_conv_mem {db : ChatDb} {email : List Char}
    {sid : Option Nat} {conv : ConvRec} {u : UserRec} {db1 : ChatDb}
    (h : get_or_create_conversation db email sid = (conv, u, db1)) :
    ∃ c ∈ db1.convs, c.id = conv.id := by
  exact createOrFindConv_conv_mem h

/-- C3: the orchestrator error contract (chat_service.py lines 217-289).
`generate_response` is a total function on all inputs (the `try`/`except`
structure is embedded as a match on the chain call's `Except` result, so no
exception ever propagates to the caller); whenever the chain call —
retrieval plus language-model generation — fails, the returned dictionary
carries the apology text and an explicit `error` field, its `sources` list
is empty, its `confidence_score` is `None`, and the user message persisted
before generation is still present in the conversation's stored history. -/
theorem generate_response_error_contract
    (chain : ChainFn) (db : ChatDb) (email msg : List Char) (sid : Option Nat)
    (e : List Char) (hfail : ∀ mem q, chain mem q = Except.error e) :
    dictGet (generate_response chain db email msg sid).2 "response" =
      some (.pyStr (apologyText e)) ∧
    dictGet (generate_response chain db email msg sid).2 "error" = some (.pyStr e) ∧
    dictGet (generate_response chain db email msg sid).2 "sources" = some (.pyList []) ∧
    dictGet (generate_response chain db email msg sid).2 "confidence_score" =
      some .pyNone ∧
    ∃ c ∈ (generate_response chain db email msg sid).1.convs,
      ∃ m ∈ (generate_response chain db email msg sid).1.msgs,
        m.conversationId = c.id ∧ m.content = msg ∧ m.isUserMessage = true := by
  rcases hG : get_or_create_conversation db email sid with ⟨conv, user, db1⟩
  have hrun : generate_response chain db email msg sid =
      ((save_message db1 conv msg true none none).2,
       [("response", .pyStr (apologyText e)), ("session_id", encOptNat sid),
        ("message_id", .pyNone), ("sources", .pyList []),
        ("confidence_score", .pyNone), ("error", .pyStr e)]) := by
    unfold generate_response
    rw [hG]
    simp only [hfail]
  refine ⟨by rw [hrun]; rfl, by rw [hrun]; rfl, by rw [hrun]; rfl, by rw [hrun]; rfl, ?_⟩
  rw [hrun, save_message_eq]
  obtain ⟨c, hcmem, hcid⟩ := get_or_create_conversation_conv_mem hG
  refine ⟨if c.id = conv.id then { c with lastMessageAt := some db1.clock } else c,
          List.mem_map_of_mem _ hcmem, ⟨db1.nextMsgId, conv.id, msg, true, db1.clock,
            none, none⟩, by simp, ?_, rfl, rfl⟩
  simp only []
  split <;> simp [hcid]

def failChain : ChainFn := fun _ _ => Except.error "boom".toList

def emptyDb : ChatDb := ⟨[], [], [], 1, 1, 1, 1, 0⟩

/-- Witness for C3 at a concrete failing chain over an empty database. -/
theorem generate_response_error_contract_witness :
    dictGet (generate_response failChain emptyDb "u@corp.com".toList "hello".toList none).2
      "response" = some (.pyStr (apologyText "boom".toList)) ∧
    dictGet (generate_response failChain emptyDb "u@corp.com".toList "hello".toList none).2
      "error" = some (.pyStr "boom".toList) ∧
    dictGet (generate_response failChain emptyDb "u@corp.com".toList "hello".toList none).2
      "sources" = some (.pyList []) ∧
    dictGet (generate_response failChain emptyDb "u@corp.com".toList "hello".toList none).2
      "confidence_score" = some .pyNone ∧
    ∃ c ∈ (generate_response failChain emptyDb "u@corp.com".toList "hello".toList none).1.convs,
      ∃ m ∈ (generate_response failChain emptyDb "u@corp.com".toList "hello".toList none).1.msgs,
        m.conversationId = c.id ∧ m.content = "hello".toList ∧ m.isUserMessage = true :=
  generate_response_error_contract failChain emptyDb "u@corp.com".toList "hello".toList none
    "boom".toList (fun _ _ => rfl)

/-! ## C10: shape of the error dictionary -/

lemma get_or_create_user_preserves (db : ChatDb) (email : List Char) :
    (get_or_create_user db email).2.convs = db.convs ∧
    (get_or_create_user db email).2.nextConvId = db.nextConvId ∧
    (get_or_create_user db email).2.nextSessionId = db.nextSessionId := by
  rcases h : db.users.find? (fun u => u.email == email) with _ | u <;>
    simp [get_or_create_user, h]

/-- With no session id supplied, a fresh conversation is always created,
with the freshly minted session identifier. -/
lemma get_or_create_conversation_none (db : ChatDb) (email : List Char) :
    get_or_create_conversation db email none =
      (⟨(get_or_create_user db email).2.nextConvId, (get_or_create_user db email).1.id,
        (get_or_create_user db email).2.nextSessionId, "New Chat".toList, true, none⟩,
       (get_or_create_user db email).1,
       { (get_or_create_user db email).2 with
         convs := (get_or_create_user db email).2.convs ++
           [⟨(get_or_create_user db email).2.nextConvId, (get_or_create_user db email).1.id,
             (get_or_create_user db email).2.nextSessionId, "New Chat".toList, true, none⟩],
         nextConvId := (get_or_create_user db email).2.nextConvId + 1,
         nextSessionId := (get_or_create_user db email).2.nextSessionId + 1 }) := rfl

/-- C10: on the error path the returned dictionary has no
`conversation_title` key at all, echoes the caller-supplied `session_id`
argument unchanged (`None` when none was supplied), and has `message_id`
`None`; when no session id was supplied, a new conversation with a freshly
minted session identifier was nevertheless created and persists — the error
result's shape and session identity differ from the success result's
(chat_service.py lines 280-289 versus 271-278). -/
theorem generate_response_error_dict_shape
    (chain : ChainFn) (db : ChatDb) (email msg : List Char) (sid : Option Nat)
    (e : List Char) (hfail : ∀ mem q, chain mem q = Except.error e) :
    dictGet (generate_response chain db email msg sid).2 "conversation_title" = none ∧
    dictGet (generate_response chain db email msg sid).2 "session_id" =
      some (encOptNat sid) ∧
    dictGet (generate_response chain db email msg sid).2 "message_id" = some .pyNone ∧
    (sid = none →
      (generate_response chain db email msg sid).1.convs.length = db.convs.length + 1 ∧
      ∃ c ∈ (generate_response chain db email msg sid).1.convs,
        c.sessionId = db.nextSessionId) := by
  rcases hG : get_or_create_conversation db email sid with ⟨conv, user, db1⟩
  have hrun : generate_response chain db email msg sid =
      ((save_message db1 conv msg true none none).2,
       [("response", .pyStr (apologyText e)), ("session_id", encOptNat sid),
        ("message_id", .pyNone), ("sources", .pyList []),
        ("confidence_score", .pyNone), ("error", .pyStr e)]) := by
    unfold generate_response
    rw [hG]
    simp only [hfail]
  refine ⟨by rw [hrun]; rfl, by rw [hrun]; rfl, by rw [hrun]; rfl, ?_⟩
  intro hsid
  subst hsid
  have hn := get_or_create_conversation_none db email
  rw [hG] at hn
  obtain ⟨hpre, _, hses⟩ := get_or_create_user_preserves db email
  injection hn with h1 hrest
  injection hrest with h2 h3
  constructor
  · rw [hrun, save_message_eq]
    simp only [List.length_map]
    rw [h3]
    simp [hpre]
  · rw [hrun, save_message_eq]
    refine ⟨if (⟨(get_or_create_user db email).2.nextConvId,
                 (get_or_create_user db email).1.id,
                 (get_or_create_user db email).2.nextSessionId,
                 "New Chat".toList, true, none⟩ : ConvRec).id = conv.id
            then { (⟨(get_or_create_user db email).2.nextConvId,
                     (get_or_create_user db email).1.id,
                     (get_or_create_user db email).2.nextSessionId,
                     "New Chat".toList, true, none⟩ : ConvRec) with
                   lastMessageAt := some db1.clock }
            else ⟨(get_or_create_user db email).2.nextConvId,
                  (get_or_create_user db email).1.id,
                  (get_or_create_user db email).2.nextSessionId,
                  "New Chat".toList, true, none⟩, ?_, ?_⟩
    · apply List.mem_map_of_mem
      rw [h3]
      simp
    · split <;> simp [hses]

/-- Witness for C10 at a concrete failing chain over an empty database. -/
theorem generate_response_error_dict_shape_witness :
    dictGet (generate_response failChain emptyDb "u@corp.com".toList "hi there".toList none).2
      "conversation_title" = none ∧
    dictGet (generate_response failChain emptyDb "u@corp.com".toList "hi there".toList none).2
      "session_id" = some (encOptNat none) ∧
    dictGet (generate_response failChain emptyDb "u@corp.com".toList "hi there".toList none).2
      "message_id" = some .pyNone ∧
    (none = (none : Option Nat) →
      (generate_response failChain emptyDb "u@corp.com".toList "hi there".toList none).1.convs.length
        = emptyDb.convs.length + 1 ∧
      ∃ c ∈ (generate_response failChain emptyDb "u@corp.com".toList "hi there".toList none).1.convs,
        c.sessionId = emptyDb.nextSessionId) :=
  generate_response_error_dict_shape failChain emptyDb "u@corp.com".toList "hi there".toList
    none "boom".toList (fun _ _ => rfl)

/-! ## C5: confidence scoring -/

/-- C5: on the success path the returned `confidence_score` is `None` when
no source documents were attributed, and otherwise the arithmetic mean of
the per-source relevance scores capped at 1 (chat_service.py lines 249-253);
the stored assistant message carries the same sources and confidence. -/
theorem generate_response_confidence_contract
    (chain : ChainFn) (db : ChatDb) (email msg : List Char) (sid : Option Nat)
    (ans : List Char) (docs : List ChainDoc)
    (hok : ∀ mem q, chain mem q = Except.ok (ans, docs)) :
    (docs = [] →
      dictGet (generate_response chain db email msg sid).2 "confidence_score" =
        some .pyNone) ∧
    (docs ≠ [] →
      dictGet (generate_response chain db email msg sid).2 "confidence_score" =
        some (.pyFloat (min (((docs.map mkSourceInfo).map (fun s => s.relevanceScore)).sum /
          ((docs.map mkSourceInfo).length : ℚ)) 1))) ∧
    ∃ m ∈ (generate_response chain db email msg sid).1.msgs,
      m.isUserMessage = false ∧ m.content = ans ∧
      m.sourceDocuments = some (docs.map mkSourceInfo) ∧
      m.confidenceScore = confidenceScoreOf (docs.map mkSourceInfo) := by
  rcases hG : get_or_create_conversation db email sid with ⟨conv, user, db1⟩
  have hcs : dictGet (generate_response chain db email msg sid).2 "confidence_score" =
      some (encOptRat (confidenceScoreOf (docs.map mkSourceInfo))) := by
    unfold generate_response
    rw [hG]
    simp only [hok, save_message_eq]
    split <;> rfl
  have hmsgs : (generate_response chain db email msg sid).1.msgs =
      (save_message db1 conv msg true none none).2.msgs ++
        [⟨(save_message db1 conv msg true none none).2.nextMsgId, conv.id, ans, false,
          (save_message db1 conv msg true none none).2.clock,
          some (docs.map mkSourceInfo), confidenceScoreOf (docs.map mkSourceInfo)⟩] := by
    unfold generate_response
    rw [hG]
    simp only [hok]
    rw [save_message_eq ((save_message db1 conv msg true none none).2) conv ans false
      (some (docs.map mkSourceInfo)) (confidenceScoreOf (docs.map mkSourceInfo))]
    split <;> rfl
  refine ⟨?_, ?_, ?_⟩
  · intro h
    subst h
    rw [hcs]
    rfl
  · intro hne
    rw [hcs]
    cases docs with
    | nil => exact absurd rfl hne
    | cons d ds => simp [confidenceScoreOf, encOptRat]
  · refine ⟨⟨(save_message db1 conv msg true none none).2.nextMsgId, conv.id, ans, false,
            (save_message db1 conv msg true none none).2.clock,
            some (docs.map mkSourceInfo), confidenceScoreOf (docs.map mkSourceInfo)⟩,
           ?_, rfl, rfl, rfl, rfl⟩
    rw [hmsgs]
    simp

/-- Documents attributed by a successful chain call, with relevance scores
`1/2` and `3/4`. -/
def okChainDocs : List ChainDoc :=
  [⟨"Employees may work from home two days per week.".toList,
    some "Remote Work Policy".toList, some "HR".toList, some "policy".toList,
    some 1, some (1/2)⟩,
   ⟨"Remote work requires manager approval.".toList,
    some "Remote Work Policy".toList, some "HR".toList, some "policy".toList,
    some 1, some (3/4)⟩]

def okChain : ChainFn :=
  fun _ _ => Except.ok ("You may work remotely two days a week.".toList, okChainDocs)

/-- Witness for C5 at a concrete succeeding chain with two sources. -/
theorem generate_response_confidence_contract_witness :
    (okChainDocs = [] →
      dictGet (generate_response okChain emptyDb "u@corp.com".toList "remote work?".toList
        none).2 "confidence_score" = some .pyNone) ∧
    (okChainDocs ≠ [] →
      dictGet (generate_response okChain emptyDb "u@corp.com".toList "remote work?".toList
        none).2 "confidence_score" =
        some (.pyFloat (min (((okChainDocs.map mkSourceInfo).map
          (fun s => s.relevanceScore)).sum / ((okChainDocs.map mkSourceInfo).length : ℚ)) 1))) ∧
    ∃ m ∈ (generate_response okChain emptyDb "u@corp.com".toList "remote work?".toList
        none).1.msgs,
      m.isUserMessage = false ∧
      m.content = "You may work remotely two days a week.".toList ∧
      m.sourceDocuments = some (okChainDocs.map mkSourceInfo) ∧
      m.confidenceScore = confidenceScoreOf (okChainDocs.map mkSourceInfo) :=
  generate_response_confidence_contract okChain emptyDb "u@corp.com".toList
    "remote work?".toList none "You may work remotely two days a week.".toList okChainDocs
    (fun _ _ => rfl)

/-! ## C9: title assignment -/

lemma convs_id_unique {l : List ConvRec}
    (h : l.Pairwise (fun a b => a.id ≠ b.id))
    {a c : ConvRec} (ha : a ∈ l) (hc : c ∈ l) (hid : a.id = c.id) : a = c := by
  by_contra hne
  exact (h.forall (fun x y hxy => Ne.symm hxy) ha hc hne) hid

/-- `get_or_create_conversation` either finds an existing row (database
unchanged) or appends a freshly numbered one. -/
lemma get_or_create_conversation_convs_cases {db : ChatDb} {email : List Char}
    {sid : Option Nat} {conv : ConvRec} {u : UserRec} {db1 : ChatDb}
    (h : get_or_create_conversation db email sid = (conv, u, db1)) :
    (conv ∈ db.convs ∧ db1.convs = db.convs) ∨
    (conv.id = db.nextConvId ∧ db1.convs = db.convs ++ [conv]) := by
  obtain ⟨hpre, hnid, _⟩ := get_or_create_user_preserves db email
  unfold get_or_create_conversation createOrFindConv at h
  rcases hf : findActiveConv (get_or_create_user db email).2
      (get_or_create_user db email).1.id sid with _ | c0 <;> rw [hf] at h
  · rcases sid with _ | s <;> simp only [Prod.mk.injEq] at h
    · refine Or.inr ⟨?_, ?_⟩
      · rw [← h.1]
        simp [hnid]
      · rw [← h.2.2, ← h.1]
        simp [hpre]
    · refine Or.inr ⟨?_, ?_⟩
      · rw [← h.1]
        simp [hnid]
      · rw [← h.2.2, ← h.1]
        simp [hpre]
  · simp only [Prod.mk.injEq] at h
    refine Or.inl ⟨?_, ?_⟩
    · rw [← h.1, ← hpre]
      unfold findActiveConv at hf
      rcases sid with _ | s
      · exact absurd hf (by simp)
      · exact List.mem_of_find?_eq_some hf
    · rw [← h.2.2, hpre]

/-- Every conversation row after `generate_response` descends from a row of
the database as it stood after `get_or_create_conversation`, with the same
id; its title is unchanged unless it is the orchestrator's conversation,
that conversation was still titled `"New Chat"`, and the user message is
longer than 10 characters, in which case the title is the truncated user
message (chat_service.py lines 265-269). -/
lemma generate_response_convs_shape
    (chain : ChainFn) (db : ChatDb) (email msg : List Char) (sid : Option Nat) :
    ∀ c' ∈ (generate_response chain db email msg sid).1.convs,
      ∃ a ∈ (get_or_create_conversation db email sid).2.2.convs,
        a.id = c'.id ∧
        (c'.title = a.title ∨
          (a.id = (get_or_create_conversation db email sid).1.id ∧
           (get_or_create_conversation db email sid).1.title = "New Chat".toList ∧
           10 < msg.length ∧ c'.title = newTitleFrom msg)) := by
  rcases hG : get_or_create_conversation db email sid with ⟨conv, user, db1⟩
  intro c' hc'
  unfold generate_response at hc'
  rw [hG] at hc'
  simp only [] at hc'
  rcases hch : chain (load_conversation_history db1 conv.id) msg with e | pr
  · rw [hch] at hc'
    simp only [save_message_eq, List.mem_map] at hc'
    obtain ⟨a, ha, hfa⟩ := hc'
    by_cases haid : a.id = conv.id <;>
      refine ⟨a, ha, ?_, Or.inl ?_⟩ <;> rw [← hfa] <;> simp [haid]
  · rcases pr with ⟨ans, docs⟩
    rw [hch] at hc'
    simp only [save_message_eq] at hc'
    by_cases ht : conv.title = "New Chat".toList ∧ 10 < msg.length
    · rw [if_pos ht] at hc'
      simp only [List.map_map, List.mem_map] at hc'
      obtain ⟨a, ha, hfa⟩ := hc'
      by_cases haid : a.id = conv.id
      · refine ⟨a, ha, ?_, Or.inr ⟨haid, ht.1, ht.2, ?_⟩⟩ <;>
          rw [← hfa] <;> simp [Function.comp, haid]
      · refine ⟨a, ha, ?_, Or.inl ?_⟩ <;>
          rw [← hfa] <;> simp [Function.comp, haid]
    · rw [if_neg ht] at hc'
      simp only [List.map_map, List.mem_map] at hc'
      obtain ⟨a, ha, hfa⟩ := hc'
      by_cases haid : a.id = conv.id <;>
        refine ⟨a, ha, ?_, Or.inl ?_⟩ <;> rw [← hfa] <;> simp [Function.comp, haid]

/-- C9: titles are assigned from a user message only while the stored title
is still the placeholder `"New Chat"` and the message is longer than 10
characters; the assigned title is the message truncated to 50 characters
with `"..."` appended exactly when truncation occurred; and an assigned
title can never be `"New Chat"` again, so no later `generate_response` call
changes it (chat_service.py lines 265-269).  The database is assumed
well-formed: distinct conversation ids, all below the id counter. -/
theorem conversation_title_assignment
    (chain : ChainFn) (db : ChatDb) (email msg : List Char) (sid : Option Nat)
    (huniq : db.convs.Pairwise (fun a b => a.id ≠ b.id))
    (hfresh : ∀ a ∈ db.convs, a.id < db.nextConvId) :
    (∀ c ∈ db.convs, ∀ c' ∈ (generate_response chain db email msg sid).1.convs,
      c'.id = c.id →
      ((c.title ≠ "New Chat".toList → c'.title = c.title) ∧
       (c'.title ≠ c.title →
         c.title = "New Chat".toList ∧ 10 < msg.length ∧ c'.title = newTitleFrom msg))) ∧
    (10 < msg.length → newTitleFrom msg ≠ "New Chat".toList) := by
  constructor
  · intro c hc c' hc' hid
    rcases hG : get_or_create_conversation db email sid with ⟨conv, user, db1⟩
    have hshape := generate_response_convs_shape chain db email msg sid c' hc'
    rw [hG] at hshape
    obtain ⟨a, ha0, haid0, hrel0⟩ := hshape
    replace ha0 : a ∈ db1.convs := ha0
    replace haid0 : a.id = c'.id := haid0
    replace hrel0 : c'.title = a.title ∨
        (a.id = conv.id ∧ conv.title = "New Chat".toList ∧ 10 < msg.length ∧
         c'.title = newTitleFrom msg) := hrel0
    have hcases := get_or_create_conversation_convs_cases hG
    have hadb : a ∈ db.convs := by
      rcases hcases with ⟨_, hconvs⟩ | ⟨hcid, hconvs⟩
      · rwa [hconvs] at ha0
      · rw [hconvs] at ha0
        rcases List.mem_append.mp ha0 with h | h
        · exact h
        · exfalso
          have hconveq : a = conv := by simpa using h
          have h2 := hfresh c hc
          rw [← hid, ← haid0, hconveq, hcid] at h2
          exact lt_irrefl _ h2
    have hac : a = c := convs_id_unique huniq hadb hc (by rw [haid0, hid])
    constructor
    · intro hne
      rcases hrel0 with h | ⟨haconv, hnew, _, _⟩
      · rw [h, hac]
      · exfalso
        rcases hcases with ⟨hmem, _⟩ | ⟨hcid, _⟩
        · have hconvc : conv = c :=
            convs_id_unique huniq hmem hc (by rw [← haconv, haid0, hid])
          exact hne (by rw [← hconvc, hnew])
        · have h2 := hfresh c hc
          rw [← hac, haconv, hcid] at h2
          exact lt_irrefl _ h2
    · intro hne
      rcases hrel0 with h | ⟨haconv, hnew, hlen, htitle⟩
      · exact absurd (by rw [h, hac]) hne
      · rcases hcases with ⟨hmem, _⟩ | ⟨hcid, _⟩
        · have hconvc : conv = c :=
            convs_id_unique huniq hmem hc (by rw [← haconv, haid0, hid])
          exact ⟨by rw [← hconvc, hnew], hlen, htitle⟩
        · exfalso
          have h2 := hfresh c hc
          rw [← hac, haconv, hcid] at h2
          exact lt_irrefl _ h2
  · intro hlen heq
    have h2 := congrArg List.length heq
    rw [newTitleFrom] at h2
    simp only [List.length_append, List.length_take] at h2
    by_cases h50 : 50 < msg.length
    · rw [if_pos h50] at h2
      simp at h2
      omega
    · rw [if_neg h50] at h2
      simp at h2
      omega

/-- A well-formed single-conversation database whose title is already set. -/
def titleDb : ChatDb :=
  ⟨[⟨1, "u".toList, "u@corp.com".toList, "employee".toList⟩],
   [⟨1, 1, 7, "Vacation policy".toList, true, none⟩], [], 2, 2, 1, 8, 0⟩

/-- Witness for C9: on a database whose only conversation already carries a
non-placeholder title, a further call leaves the title unchanged. -/
theorem conversation_title_assignment_witness :
    titleDb.convs.Pairwise (fun a b => a.id ≠ b.id) ∧
    (∀ a ∈ titleDb.convs, a.id < titleDb.nextConvId) ∧
    (∀ c ∈ titleDb.convs,
      ∀ c' ∈ (generate_response failChain titleDb "u@corp.com".toList
          "what is our vacation policy?".toList (some 7)).1.convs,
        c'.id = c.id →
        ((c.title ≠ "New Chat".toList → c'.title = c.title) ∧
         (c'.title ≠ c.title →
           c.title = "New Chat".toList ∧ 10 < "what is our vacation policy?".toList.length ∧
           c'.title = newTitleFrom "what is our vacation policy?".toList))) ∧
    (10 < "what is our vacation policy?".toList.length →
      newTitleFrom "what is our vacation policy?".toList ≠ "New Chat".toList) :=
  ⟨by simp [titleDb], by decide,
   (conversation_title_assignment failChain titleDb "u@corp.com".toList
     "what is our vacation policy?".toList (some 7) (by simp [titleDb]) (by decide)).1,
   (conversation_title_assignment failChain titleDb "u@corp.com".toList
     "what is our vacation policy?".toList (some 7) (by simp [titleDb]) (by decide)).2⟩

/-! ## Embedding client (`EmbeddingService.calculate_similarity`,
embedding_service.py lines 45-54) -/

/-- `np.dot(vec1, vec2)`. -/
def dotProduct (v w : List ℚ) : ℚ := (List.zipWith (fun a b => a * b) v w).sum

/-- The square of `np.linalg.norm(vec)`: the sum of squares.  The norm
itself is its (irrational) square root, so results are stated in terms of
squares throughout. -/
def normSq (v : List ℚ) : ℚ := (v.map (fun x => x * x)).sum

/-- The outcome of `calculate_similarity`: either a raised domain/validation
error, or the returned scalar `dot / (‖v‖ * ‖w‖)`, represented by the triple
`(dot, ‖v‖², ‖w‖²)` because the square roots are irrational. -/
inductive SimOutcome where
  | value : ℚ → ℚ → ℚ → SimOutcome
  | domainError : SimOutcome
deriving DecidableEq, Repr

/-- `EmbeddingService.calculate_similarity` (embedding_service.py
lines 45-54): computes the dot product and the two norms and divides.  The
source has no validation branch of any kind, so no input maps to
`domainError`; a zero-magnitude vector reaches the division (yielding a
float NaN in numpy) instead of being rejected. -/
def calculate_similarity (e1 e2 : List ℚ) : SimOutcome :=
  .value (dotProduct e1 e2) (normSq e1) (normSq e2)

lemma normSq_nonneg (v : List ℚ) : 0 ≤ normSq v := by
  induction v with
  | nil => simp [normSq]
  | cons x xs ih =>
    have h : normSq (x :: xs) = x * x + normSq xs := by simp [normSq]
    rw [h]
    nlinarith [mul_self_nonneg x]

/-- Cauchy-Schwarz for the list dot product. -/
lemma dotProduct_sq_le (v w : List ℚ) : dotProduct v w ^ 2 ≤ normSq v * normSq w := by
  induction v generalizing w with
  | nil => simp [dotProduct, normSq]
  | cons x xs ih =>
    cases w with
    | nil =>
      simp [dotProduct, normSq]
    | cons y ys =>
      have h1 : dotProduct (x :: xs) (y :: ys) = x * y + dotProduct xs ys := by
        simp [dotProduct]
      have h2 : normSq (x :: xs) = x * x + normSq xs := by simp [normSq]
      have h3 : normSq (y :: ys) = y * y + normSq ys := by simp [normSq]
      rw [h1, h2, h3]
      have hd := ih ys
      have ha := normSq_nonneg xs
      have hb := normSq_nonneg ys
      rcases eq_or_lt_of_le ha with ha0 | hapos
      · have hd0 : dotProduct xs ys = 0 := by
          have hsq : dotProduct xs ys ^ 2 ≤ 0 := by nlinarith
          have := sq_nonneg (dotProduct xs ys)
          have : dotProduct xs ys ^ 2 = 0 := le_antisymm hsq this
          exact pow_eq_zero_iff two_ne_zero |>.mp this
        rw [hd0, ← ha0]
        nlinarith [mul_self_nonneg x, mul_self_nonneg y, sq_nonneg (x * y)]
      · nlinarith [sq_nonneg (x * dotProduct xs ys - y * normSq xs), hd, hb,
          sq_nonneg x, mul_pos hapos hapos]

/-- C6 counterexample: the zero vector has zero magnitude, yet
`calculate_similarity` does not fail with a domain error on it — the source
has no zero-magnitude check at all (embedding_service.py lines 45-54 contain
no branch or raise), contradicting the claimed validation-before-call. -/
theorem calculate_similarity_no_zero_check :
    normSq [(0 : ℚ)] = 0 ∧
    calculate_similarity [(0 : ℚ)] [0] ≠ SimOutcome.domainError := by
  refine ⟨by simp [normSq], by decide⟩

/-- C6 (amended): `calculate_similarity` always returns the scalar
`dot / (‖v‖ * ‖w‖)` — never a domain error — and the Cauchy-Schwarz bound
`dot² ≤ ‖v‖² * ‖w‖²` holds, so whenever both magnitudes are nonzero the
returned scalar lies in `[-1, 1]`; zero-magnitude input produces a non-error
result (a float NaN) rather than a validation error. -/
theorem calculate_similarity_in_range (v w : List ℚ) :
    calculate_similarity v w = SimOutcome.value (dotProduct v w) (normSq v) (normSq w) ∧
    dotProduct v w ^ 2 ≤ normSq v * normSq w ∧
    0 ≤ normSq v ∧ 0 ≤ normSq w :=
  ⟨rfl, dotProduct_sq_le v w, normSq_nonneg v, normSq_nonneg w⟩

/-! ## Retrieval endpoint (`search_documents`, documents.py lines 98-138)

The external services are parameters: `embed` is
`embedding_service.generate_embedding` and `index` is
`vector_service.search_similar_chunks`, which returns the ranked nearest
candidates — at most as many as requested (`n_results`). -/

/-- One ranked candidate from the vector index: text, distance, metadata
(`Option` marks fields `metadata.get` may miss), and the vector-index id. -/
structure SearchCandidate where
  content : List Char
  distance : ℚ
  department : Option (List Char)
  contentType : Option (List Char)
  documentId : Option Nat
  chunkIndex : Option Nat
  vectorId : Nat
deriving DecidableEq, Repr

/-- `DocumentSearchRequest`: query, optional filters, result limit. -/
structure SearchRequest where
  query : List Char
  department : Option (List Char)
  contentType : Option (List Char)
  limit : Nat
deriving DecidableEq, Repr

/-- One entry of the returned `chunks` list (documents.py lines 127-133). -/
structure SearchChunk where
  content : List Char
  chunkIndex : Nat
  relevanceScore : ℚ
  documentId : Option Nat
  vectorId : Nat
deriving DecidableEq, Repr

/-- Python truthiness of an optional string filter: `None` and `""` are
falsy, so an empty-string filter is inactive. -/
def filterActive (o : Option (List Char)) : Bool :=
  match o with
  | none => false
  | some s => !s.isEmpty

/-- The two `continue` guards of documents.py lines 122-125: a candidate
passes when each active filter matches its metadata exactly; a missing
metadata field never matches an active filter. -/
def passesFilters (req : SearchRequest) (c : SearchCandidate) : Bool :=
  (!(filterActive req.department) || c.department == req.department) &&
  (!(filterActive req.contentType) || c.contentType == req.contentType)

/-- The chunk dict appended at documents.py lines 127-133:
`relevance_score = 1 - distance`, `chunk_index` defaults to 0. -/
def mkSearchChunk (c : SearchCandidate) : SearchChunk :=
  ⟨c.content, c.chunkIndex.getD 0, 1 - c.distance, c.documentId, c.vectorId⟩

/-- The collection loop of documents.py lines 112-138: `count` is the number
of chunks collected so far; after appending a passing candidate the loop
breaks as soon as `len(chunk_results) >= limit`. -/
def collectChunks (req : SearchRequest) : Nat → List SearchCandidate → List SearchChunk
  | _, [] => []
  | count, c :: rest =>
    if passesFilters req c then
      if req.limit ≤ count + 1 then [mkSearchChunk c]
      else mkSearchChunk c :: collectChunks req (count + 1) rest
    else collectChunks req count rest

/-- The `search_documents` handler (documents.py lines 98-138): embed the
query (one `generate_embedding` call, line 100), request `limit * 2`
candidates from the vector index (one `search_similar_chunks` call,
lines 103-106), then filter/truncate client-side.  The second and third
components log the arguments of the embedding call and of the index request,
one entry per call made by the handler. -/
def search_documents (embed : List Char → List ℚ)
    (index : List ℚ → Nat → List SearchCandidate) (req : SearchRequest) :
    List SearchChunk × List (List Char) × List Nat :=
  (collectChunks req 0 (index (embed req.query) (req.limit * 2)),
   [req.query], [req.limit * 2])

lemma collectChunks_eq_take (req : SearchRequest) :
    ∀ (cands : List SearchCandidate) (count : Nat), count < req.limit →
      collectChunks req count cands =
        ((cands.filter (passesFilters req)).map mkSearchChunk).take (req.limit - count) := by
  intro cands
  induction cands with
  | nil => intro count _; simp [collectChunks]
  | cons c rest ih =>
    intro count hcount
    by_cases hp : passesFilters req c
    · rw [List.filter_cons_of_pos hp, List.map_cons]
      simp only [collectChunks, hp, if_true]
      by_cases hend : req.limit ≤ count + 1
      · have h1 : req.limit - count = 1 := by omega
        rw [if_pos hend, h1]
        simp
      · have h1 : req.limit - count = (req.limit - (count + 1)) + 1 := by omega
        rw [if_neg hend, h1, List.take_succ_cons, ih (count + 1) (by omega)]
    · rw [List.filter_cons_of_neg hp]
      simp only [collectChunks, hp, if_false]
      exact ih count hcount

lemma collectChunks_early_stop (req : SearchRequest) :
    ∀ (l1 l2 : List SearchCandidate) (count : Nat), count < req.limit →
      req.limit ≤ count + (l1.filter (passesFilters req)).length →
      collectChunks req count (l1 ++ l2) = collectChunks req count l1 := by
  intro l1
  induction l1 with
  | nil =>
    intro l2 count h1 h2
    simp at h2
    omega
  | cons c rest ih =>
    intro l2 count h1 h2
    by_cases hp : passesFilters req c
    · simp only [List.cons_append, collectChunks, hp, if_true]
      by_cases hend : req.limit ≤ count + 1
      · rw [if_pos hend, if_pos hend]
      · rw [if_neg hend, if_neg hend]
        rw [List.filter_cons_of_pos hp] at h2
        exact congrArg (mkSearchChunk c :: ·)
          (ih l2 (count + 1) (by omega) (by simp only [List.length_cons] at h2; omega))
    · simp only [List.cons_append, collectChunks, hp, if_false]
      rw [List.filter_cons_of_neg hp] at h2
      exact ih l2 count h1 h2

/-- C7: the search handler embeds the query exactly once, requests
`limit * 2` candidates from the vector index, filters client-side, truncates
to at most `limit` results preserving the index's rank order (the output is
the order-preserving filtered prefix), and stops early — candidates after
the `limit`-th post-filter match never affect the result. -/
theorem search_documents_contract
    (embed : List Char → List ℚ) (index : List ℚ → Nat → List SearchCandidate)
    (req : SearchRequest)
    (hindex : ∀ e n, (index e n).length ≤ n) :
    (search_documents embed index req).2.1 = [req.query] ∧
    (search_documents embed index req).2.2 = [req.limit * 2] ∧
    (search_documents embed index req).1 =
      (((index (embed req.query) (req.limit * 2)).filter (passesFilters req)).map
        mkSearchChunk).take req.limit ∧
    (search_documents embed index req).1.length ≤ req.limit ∧
    (∀ l1 l2 : List SearchCandidate, 1 ≤ req.limit →
      req.limit ≤ (l1.filter (passesFilters req)).length →
      collectChunks req 0 (l1 ++ l2) = collectChunks req 0 l1) := by
  have h3 : (search_documents embed index req).1 =
      (((index (embed req.query) (req.limit * 2)).filter (passesFilters req)).map
        mkSearchChunk).take req.limit := by
    rcases Nat.eq_zero_or_pos req.limit with h0 | hpos
    · have hlen := hindex (embed req.query) (req.limit * 2)
      have hnil : index (embed req.query) (req.limit * 2) = [] := by
        apply List.eq_nil_of_length_eq_zero
        omega
      unfold search_documents
      rw [hnil]
      show collectChunks req 0 [] = _
      simp [collectChunks]
    · unfold search_documents
      simp only []
      rw [collectChunks_eq_take req _ 0 hpos, Nat.sub_zero]
  refine ⟨rfl, rfl, h3, ?_, ?_⟩
  · rw [h3]
    exact List.length_take_le _ _
  · intro l1 l2 h1 h2
    exact collectChunks_early_stop req l1 l2 0 h1 (by omega)

def demoCands : List SearchCandidate :=
  [⟨"Remote work policy chunk".toList, 1/10, some "HR".toList, some "policy".toList,
    some 1, some 0, 11⟩,
   ⟨"Engineering handbook chunk".toList, 2/10, some "ENG".toList, some "manual".toList,
    some 2, some 0, 12⟩,
   ⟨"Holiday policy chunk".toList, 3/10, some "HR".toList, some "policy".toList,
    some 3, some 1, 13⟩,
   ⟨"Travel policy chunk".toList, 4/10, some "HR".toList, some "policy".toList,
    some 4, some 2, 14⟩]

/-- A vector index returning the ranked prefix of `demoCands`. -/
def demoIndex : List ℚ → Nat → List SearchCandidate := fun _ n => demoCands.take n

def demoEmbed : List Char → List ℚ := fun _ => [1]

def demoReq : SearchRequest := ⟨"remote work".toList, some "HR".toList, none, 2⟩

/-- Witness for C7 on a concrete index of four candidates with an active
department filter and limit 2. -/
theorem search_documents_contract_witness :
    (∀ (e : List ℚ) (n : Nat), (demoIndex e n).length ≤ n) ∧
    (search_documents demoEmbed demoIndex demoReq).2.1 = [demoReq.query] ∧
    (search_documents demoEmbed demoIndex demoReq).2.2 = [demoReq.limit * 2] ∧
    (search_documents demoEmbed demoIndex demoReq).1 =
      (((demoIndex (demoEmbed demoReq.query) (demoReq.limit * 2)).filter
        (passesFilters demoReq)).map mkSearchChunk).take demoReq.limit ∧
    (search_documents demoEmbed demoIndex demoReq).1.length ≤ demoReq.limit :=
  have hidx : ∀ (e : List ℚ) (n : Nat), (demoIndex e n).length ≤ n :=
    fun _ _ => List.length_take_le _ _
  ⟨hidx,
   (search_documents_contract demoEmbed demoIndex demoReq hidx).1,
   (search_documents_contract demoEmbed demoIndex demoReq hidx).2.1,
   (search_documents_contract demoEmbed demoIndex demoReq hidx).2.2.1,
   (search_documents_contract demoEmbed demoIndex demoReq hidx).2.2.2.1⟩
